import Mathlib

/-!
Verification development for the invoice-generation utility (src/app.py).

The embedding models spreadsheet cells, the row normalizer
(`get_safe_value` and the coercions in `generate_individual_invoice`),
the date formatter (`format_invoice_date`, including the backtracking
behaviour of CPython strptime on the pattern "%m%d%Y"), the filename
derivation, the mother-invoice data assembly (`generate_mother_invoice`),
the zip packager (`create_child_invoices_zip`) and the in-place cleaning
step of the upload handler (`index`).

Python exceptions are modelled with `Except String`; a `.error` value
corresponds to an exception escaping the modelled code.  Machine floats
are modelled as rationals: the claims under study never depend on binary
rounding, and every comment below notes where that abstraction is used.
-/

/-- A spreadsheet cell as the Python code sees it after pandas loading:
either missing/NaN/NaT (pandas "na" values, also used for an absent key),
a string, a Python int, or a Python float (modelled as an exact rational;
IEEE rounding is irrelevant to the claims). -/
inductive Value where
  | vNone : Value
  | vStr : String → Value
  | vInt : Int → Value
  | vFloat : Rat → Value
deriving DecidableEq

/-- A DataFrame row: an association list from column name to cell value.
A key that is absent models a column absent from the frame; a present key
with `vNone` models a NaN cell. -/
abbrev Row := List (String × Value)

instance {ε α : Type} [DecidableEq ε] [DecidableEq α] : DecidableEq (Except ε α) := fun x y =>
  match x, y with
  | .ok a, .ok b => if h : a = b then .isTrue (by rw [h]) else .isFalse (by simp [h])
  | .error a, .error b => if h : a = b then .isTrue (by rw [h]) else .isFalse (by simp [h])
  | .ok _, .error _ => .isFalse (by simp)
  | .error _, .ok _ => .isFalse (by simp)

/-- Lookup of a key in a row, `df_row.get(key, default)` without the
default step. -/
def rowGet (r : Row) (k : String) : Option Value :=
  (r.find? (fun p => p.1 == k)).map (fun p => p.2)

/-- Python truthiness of a cell value (`bool(v)`).  `vNone` is only ever
tested after `get_safe_value` replaced it by a default, so its value here
is immaterial; None is falsy in Python. -/
def pyTruthy : Value → Bool
  | .vNone => false
  | .vStr s => !(s == "")
  | .vInt n => !(n == 0)
  | .vFloat q => !(q == 0)

/-- Source `get_safe_value` (app.py lines 17-25): return the cell if the
key is present and the value is not na, else the default. -/
def get_safe_value (r : Row) (k : String) (default : Value) : Value :=
  match rowGet r k with
  | none => default
  | some v => if v = Value.vNone then default else v

/-- Digit character, `48+n` as a character; applied only to `n < 10`. -/
def digitChar (n : Nat) : Char := Char.ofNat (48 + n)

/-- Decimal digits of a natural number, fuel-indexed so that the
definition is structural (kernel-reducible).  `natDigitsAux (n+1) n`
is the digit list of `n`, most significant first; this models the
Python rendering `str(n)` for a non-negative int. -/
def natDigitsAux : Nat → Nat → List Char
  | 0, _ => []
  | fuel + 1, n =>
    if n < 10 then [digitChar n]
    else natDigitsAux fuel (n / 10) ++ [digitChar (n % 10)]

/-- Decimal digit list of a natural number (Python `str(n)`). -/
def natDigits (n : Nat) : List Char := natDigitsAux (n + 1) n

/-- Python `str(n)` for an int, as a character list. -/
def intStr (n : Int) : List Char :=
  if n < 0 then '-' :: natDigits n.natAbs else natDigits n.toNat

/-- The last `k` decimal digits of `r`, zero padded to width `k`
(the digit block a larger number contributes below a split point). -/
def zeroPad : Nat → Nat → List Char
  | 0, _ => []
  | k + 1, r => zeroPad k (r / 10) ++ [digitChar (r % 10)]

/-- Python `str(v)` of a cell value as used by the code: f-string
interpolation and `Series.astype(str)`.  A NaN cell stringifies to
"nan" under `astype(str)` (the only reachable `vNone` case in the
code under study).  The decimal rendering of a float with a fractional
part is not needed by any claim and is left abstract. -/
def pyAstypeStr : Value → String
  | .vNone => "nan"
  | .vStr s => s
  | .vInt n => String.mk (intStr n)
  | .vFloat q =>
    if q.den = 1 then String.mk (intStr q.num) ++ ".0"
    else "<nonintegral-float-repr>"

/-- Truncation toward zero, Python `int()` applied to a float
(num/den in truncating integer division). -/
def pyTrunc (q : Rat) : Int := q.num.tdiv q.den

/-- Leading characters of `s` satisfying `isDigit`, and the rest. -/
def takeDigits : Nat → List Char → (List Char × List Char)
  | 0, s => ([], s)
  | _ + 1, [] => ([], [])
  | k + 1, c :: rest =>
    if c.isDigit then
      let (ds, r) := takeDigits k rest
      (c :: ds, r)
    else ([], c :: rest)

/-- Numeric value of a digit-character list, most significant first. -/
def digitsVal (ds : List Char) : Nat :=
  ds.foldl (fun a c => a * 10 + (c.toNat - 48)) 0

/-- Strict decimal integer literal parse, Python `int(s)` on a string:
optional surrounding whitespace, optional sign, one or more digits and
nothing else.  (Underscore separators and non-ASCII digits, which Python
also accepts, are not modelled; no claim uses them.) -/
def parseIntStr (s : String) : Option Int :=
  let cs := (s.data.dropWhile Char.isWhitespace).reverse.dropWhile Char.isWhitespace |>.reverse
  let (neg, body) :=
    match cs with
    | '-' :: rest => (true, rest)
    | '+' :: rest => (false, rest)
    | _ => (false, cs)
  let (ds, rest) := takeDigits body.length body
  if ds = [] ∨ rest ≠ [] then none
  else some (if neg then -(digitsVal ds : Int) else (digitsVal ds : Int))

/-- Decimal float literal parse, Python `float(s)` on a string:
optional surrounding whitespace, optional sign, then digits with an
optional decimal point ("1", "1.5", ".5", "1.").  (Exponents and
inf/nan literals, which Python also accepts, are not modelled; no claim
uses them.) -/
def parseFloatStr (s : String) : Option Rat :=
  let cs := (s.data.dropWhile Char.isWhitespace).reverse.dropWhile Char.isWhitespace |>.reverse
  let (neg, body) :=
    match cs with
    | '-' :: rest => (true, rest)
    | '+' :: rest => (false, rest)
    | _ => (false, cs)
  let (ip, rest) := takeDigits body.length body
  let val? : Option Rat :=
    match rest with
    | [] => if ip = [] then none else some ((digitsVal ip : Nat) : Rat)
    | '.' :: rest2 =>
      let (fp, rest3) := takeDigits rest2.length rest2
      if rest3 ≠ [] then none
      else if ip = [] ∧ fp = [] then none
      else some ((digitsVal ip : Nat) + (digitsVal fp : Nat) / ((10 : Rat) ^ fp.length))
    | _ => none
  val?.map (fun q => if neg then -q else q)

/-- Python `float(v)` on a cell value; raises (TypeError/ValueError)
on None and unparseable strings. -/
def pyFloatOf : Value → Except String Rat
  | .vNone => .error "TypeError: float() argument"
  | .vStr s =>
    match parseFloatStr s with
    | some q => .ok q
    | none => .error "ValueError: could not convert string to float"
  | .vInt n => .ok (n : Rat)
  | .vFloat q => .ok q

/-- Python `int(v)` on a cell value; floats truncate toward zero,
strings must be integer literals. -/
def pyIntOf : Value → Except String Int
  | .vNone => .error "TypeError: int() argument"
  | .vStr s =>
    match parseIntStr s with
    | some n => .ok n
    | none => .error "ValueError: invalid literal for int()"
  | .vInt n => .ok n
  | .vFloat q => .ok (pyTrunc q)

/-!
Date formatter (app.py lines 27-41, `format_invoice_date`).

CPython `strptime(s, "%m%d%Y")` compiles the format into the regex
`(1[0-2]|0[1-9]|[1-9])(3[01]|[12]\d|0[1-9]|[1-9])(\d\d\d\d)` and takes
the first (leftmost-preference, backtracking) match of that regex as a
prefix of `s`; if no match exists, or characters remain after the match,
or the matched numbers do not form a valid proleptic-Gregorian calendar
date with year at least 1, a ValueError is raised (which the source
catches and replaces by the current date).  The candidate lists below
enumerate each group in the alternation order of the regex, and
`firstSome` realises the backtracking search.
-/

/-- First result of `f` over `l`, in order. -/
def firstSome : List α → (α → Option β) → Option β
  | [], _ => none
  | a :: l, f => match f a with
    | some b => some b
    | none => firstSome l f

/-- Matches of the month group `(1[0-2]|0[1-9]|[1-9])` at the start of
`s`, in regex alternation order, with the remaining input. -/
def monthCands (s : List Char) : List (Nat × List Char) :=
  (match s with
   | c :: d :: r =>
     (if c = '1' ∧ '0' ≤ d ∧ d ≤ '2' then [(10 + (d.toNat - 48), r)] else [])
     ++ (if c = '0' ∧ '1' ≤ d ∧ d ≤ '9' then [(d.toNat - 48, r)] else [])
   | _ => [])
  ++ (match s with
      | c :: r => if '1' ≤ c ∧ c ≤ '9' then [(c.toNat - 48, r)] else []
      | [] => [])

/-- Matches of the day group `(3[01]|[12]\d|0[1-9]|[1-9])` at the start
of `s`, in regex alternation order, with the remaining input. -/
def dayCands (s : List Char) : List (Nat × List Char) :=
  (match s with
   | c :: d :: r =>
     (if c = '3' ∧ ('0' ≤ d ∧ d ≤ '1') then [(30 + (d.toNat - 48), r)] else [])
     ++ (if (c = '1' ∨ c = '2') ∧ d.isDigit then [((c.toNat - 48) * 10 + (d.toNat - 48), r)] else [])
     ++ (if c = '0' ∧ '1' ≤ d ∧ d ≤ '9' then [(d.toNat - 48, r)] else [])
   | _ => [])
  ++ (match s with
      | c :: r => if '1' ≤ c ∧ c ≤ '9' then [(c.toNat - 48, r)] else []
      | [] => [])

/-- Match of the year group `(\d\d\d\d)` (exactly four digits) at the
start of `s`. -/
def yearCand (s : List Char) : Option (Nat × List Char) :=
  match s with
  | a :: b :: c :: d :: r =>
    if a.isDigit ∧ b.isDigit ∧ c.isDigit ∧ d.isDigit then
      some (digitsVal [a, b, c, d], r)
    else none
  | _ => none

/-- The first full-regex match of `%m%d%Y` as a prefix of `s`
(month, day, year, unconsumed rest), searched in backtracking order. -/
def regexMatchMDY (s : List Char) : Option (Nat × Nat × Nat × List Char) :=
  firstSome (monthCands s) (fun mc =>
    firstSome (dayCands mc.2) (fun dc =>
      (yearCand dc.2).map (fun yc => (mc.1, dc.1, yc.1, yc.2))))

/-- Proleptic-Gregorian leap year, as Python `datetime` uses. -/
def isLeap (y : Nat) : Bool := y % 4 = 0 && (y % 100 ≠ 0 || y % 400 = 0)

/-- Days in a month, as Python `datetime` uses. -/
def daysInMonth (m y : Nat) : Nat :=
  if m = 2 then (if isLeap y then 29 else 28)
  else if m = 4 ∨ m = 6 ∨ m = 9 ∨ m = 11 then 30
  else 31

/-- CPython `datetime.strptime(s, "%m%d%Y")`: regex match, whole-input
consumption, then calendar validity (datetime requires year ≥ 1; the
regex already confines month to 1..12 and day to 1..31). -/
def strptimeMDY (s : List Char) : Option (Nat × Nat × Nat) :=
  match regexMatchMDY s with
  | none => none
  | some (m, d, y, rest) =>
    if rest = [] ∧ 1 ≤ y ∧ d ≤ daysInMonth m y then some (m, d, y) else none

/-- Three-letter month abbreviation of `strftime`, C locale. -/
def monthAbbr : Nat → String
  | 1 => "Jan" | 2 => "Feb" | 3 => "Mar" | 4 => "Apr"
  | 5 => "May" | 6 => "Jun" | 7 => "Jul" | 8 => "Aug"
  | 9 => "Sep" | 10 => "Oct" | 11 => "Nov" | 12 => "Dec"
  | _ => ""

/-- `dt.strftime("%d %b %y")`: zero-padded day, month abbreviation,
zero-padded two-digit year. -/
def strftimeDdMonYy (m d y : Nat) : String :=
  String.mk (zeroPad 2 d) ++ " " ++ monthAbbr m ++ " " ++ String.mk (zeroPad 2 (y % 100))

/-- Falsy-or-na test of the guard `if not date_val or pd.isna(date_val)`
in `format_invoice_date`. -/
def falsyOrNa (v : Value) : Bool :=
  match v with
  | .vNone => true
  | v => !(pyTruthy v)

/-- Source `format_invoice_date` (app.py lines 27-41), with the ambient
current date (already rendered as "DD Mon YY") passed explicitly as
`today`: falsy or na input yields `today`; otherwise the value is
converted by `int()` (failure yields `today`), rendered by `str()`,
left-padded with one "0" when exactly 7 characters long, parsed by
`strptime("%m%d%Y")` and rendered by `strftime("%d %b %y")`; any parse
failure yields `today`. -/
def format_invoice_date (date_val : Value) (today : String) : String :=
  if falsyOrNa date_val then today
  else
    match pyIntOf date_val with
    | .error _ => today
    | .ok n =>
      let s := intStr n
      let s := if s.length = 7 then '0' :: s else s
      match strptimeMDY s with
      | some (m, d, y) => strftimeDdMonYy m d y
      | none => today


/-!
Substring replacement.  Python `str.replace(old, new)` with `new = ""`
removes every non-overlapping occurrence of `old`, scanning left to
right; `Series.str`-free `Series.replace(pat, "", regex=True)` does the
same through `re.sub`.  The recursion is fuel-indexed (one unit per
consumed character) to stay structural.
-/

/-- Remove every non-overlapping occurrence of `pat` from `s`, leftmost
first; `fuel` bounds the recursion and is adequate once at least
`s.length`. -/
def removeAllAux (pat : List Char) : Nat → List Char → List Char
  | 0, s => s
  | fuel + 1, s =>
    if pat ≠ [] ∧ pat.isPrefixOf s then removeAllAux pat fuel (s.drop pat.length)
    else
      match s with
      | [] => []
      | c :: cs => c :: removeAllAux pat fuel cs

/-- Remove every non-overlapping occurrence of `pat` from `s`. -/
def removeAll (pat s : List Char) : List Char := removeAllAux pat s.length s

/-- Source line 76: `.replace('-INDIA', '')` on the manufacture-country
string. -/
def replace_india (s : String) : String := String.mk (removeAll "-INDIA".data s.data)

/-- Source line 441 cell operation: the regex replacement
`replace('\.0', '', regex=True)` applied to one already-stringified
cell; `re.sub` removes every occurrence of the literal ".0". -/
def id_col_coerce (s : String) : String := String.mk (removeAll ".0".data s.data)

/-- Stated from the words of the spec, for comparison with
`replace_india`: remove a literal "-INDIA" only when it is a suffix,
leave anything else untouched. -/
def spec_strip_suffix_india (s : String) : String :=
  if "-INDIA".data.isSuffixOf s.data then String.mk (s.data.take (s.data.length - 6)) else s

/-- Stated from the words of the spec, for comparison with
`id_col_coerce`: strip a literal ".0" only when it is trailing. -/
def spec_strip_trailing_dot0 (s : String) : String :=
  if ".0".data.isSuffixOf s.data then String.mk (s.data.take (s.data.length - 2)) else s

/-- Python `v == "lit"` for a cell value: equality with a string literal
is False for any non-string value. -/
def valueEqStr (v : Value) (s : String) : Bool :=
  match v with
  | .vStr t => t == s
  | _ => false

/-- Python `v.split('-')[0]` on a cell value: the substring before the
first '-' (the whole string when none); AttributeError on a non-string
value. -/
def pySplitHeadVal : Value → Except String String
  | .vStr s => .ok (String.mk (s.data.takeWhile (fun c => c ≠ '-')))
  | _ => .error "AttributeError: split"

/-- Source line 76 applied to a cell value: `.replace('-INDIA', '')`;
AttributeError on a non-string value. -/
def pyReplaceIndiaVal : Value → Except String String
  | .vStr s => .ok (replace_india s)
  | _ => .error "AttributeError: replace"

/-- An element handed to `"<br/>".join(...)`: must be a string, else
the join raises TypeError. -/
def pyJoinElem : Value → Except String String
  | .vStr s => .ok s
  | _ => .error "TypeError: sequence item: expected str instance"

/-- Source lines 88-93: the safe base filename.  When the AWB value is
truthy and not equal to the literal "N/A", it is `str(awb)` with every
'/' then every '\' replaced by '_' (two successive single-character
`str.replace` calls, modelled as two character maps); otherwise it is
`f"invoice_{invoice_number}"`. -/
def derive_base_filename (awb_number invoice_number : Value) : String :=
  if pyTruthy awb_number && !(valueEqStr awb_number "N/A") then
    String.mk ((((pyAstypeStr awb_number).data.map
      (fun c => if c = '/' then '_' else c)).map
      (fun c => if c = '\\' then '_' else c)))
  else "invoice_" ++ pyAstypeStr invoice_number

/-- Source line 95: the produced file name, base name plus ".pdf". -/
def invoice_pdf_filename (awb_number invoice_number : Value) : String :=
  derive_base_filename awb_number invoice_number ++ ".pdf"

/-- The normalized invoice data extracted by `generate_individual_invoice`
(app.py lines 49-95) from one row: every field of §3 of the spec plus
the derived output base filename. -/
structure NormalizedInvoiceData where
  invoice_number : Value
  awb_number : Value
  export_ref : Value
  invoice_date : String
  recipient_name : Value
  recipient_address1 : Value
  recipient_address2 : Value
  recipient_city : Value
  recipient_state : Value
  recipient_postal_code : Value
  recipient_country_code : String
  recipient_phone : Value
  recipient_email : Value
  recipient_full_address : String
  description : Value
  state_origin : Value
  district_origin : Value
  hs_code : Value
  country_mfg : String
  net_weight : Rat
  quantity : Int
  uom : Value
  unit_value : Rat
  total_value : Rat
  currency : String
  freight_charges : Rat
  total_invoice_amount : Rat
  base_filename : String
deriving DecidableEq

/-- Source `generate_individual_invoice`, data-extraction and filename
part (app.py lines 49-95), in source statement order; the PDF layout
below line 96 only consumes these values.  `today` is the ambient
current date already rendered as "DD Mon YY".  A `.error` result models
an exception escaping the function (to the per-row handler in
`index`). -/
def generate_individual_invoice_data (row : Row) (today : String) :
    Except String NormalizedInvoiceData := do
  let invoice_number := get_safe_value row "Invoice Number" (.vStr "")
  let awb_number := get_safe_value row "House AWB No." (.vStr "N/A")
  let export_ref := get_safe_value row "Reference_1" (.vStr "")
  let invoice_date := format_invoice_date (get_safe_value row "Invoice Date" (.vStr "")) today
  let recipient_name := get_safe_value row "Recipient_Contact Name" (.vStr "")
  let recipient_address1 := get_safe_value row "Recipient_Address Line 1" (.vStr "")
  let recipient_address2 := get_safe_value row "Recipient_Address Line 2" (.vStr "")
  let recipient_city := get_safe_value row "Recipient_City" (.vStr "")
  let recipient_state := get_safe_value row "Recipient_State" (.vStr "")
  let recipient_postal_code := get_safe_value row "Recipient_Postal code" (.vStr "")
  let recipient_country_code ← pySplitHeadVal (get_safe_value row "Recipient_Country" (.vStr ""))
  let recipient_phone := get_safe_value row "Recipient_Phone Number" (.vStr "")
  let recipient_email := get_safe_value row "Recipient_Email" (.vStr "")
  let city_line := pyAstypeStr recipient_city ++ " " ++ pyAstypeStr recipient_state ++ " "
    ++ pyAstypeStr recipient_postal_code ++ " " ++ recipient_country_code
  let kept := [recipient_address1, recipient_address2, Value.vStr city_line].filter pyTruthy
  let parts ← kept.mapM pyJoinElem
  let recipient_full_address := String.intercalate "<br/>" parts
  let description := get_safe_value row "COMMODITY" (.vStr "")
  let state_origin := get_safe_value row "St. of Origin of goods" (.vStr "")
  let district_origin := get_safe_value row "Dis. Of Origin of goods" (.vStr "")
  let hs_code := get_safe_value row "HS CODE 1" (.vStr "")
  let country_mfg ← pyReplaceIndiaVal (get_safe_value row "Country of Manufacture" (.vStr ""))
  let net_weight ← pyFloatOf (get_safe_value row "UNIT_Weight 1" (.vFloat 0))
  let quantity ← pyIntOf (get_safe_value row "QUANTITY 1" (.vInt 0))
  let uom := get_safe_value row "UOM1" (.vStr "")
  let unit_value ← pyFloatOf (get_safe_value row "UNIT_VALUE 1" (.vFloat 0))
  let total_value ← pyFloatOf (get_safe_value row "Invoice Value" (.vFloat 0))
  let currency ← pySplitHeadVal (get_safe_value row "CURRENCY" (.vStr "USD"))
  let freight_charges ← pyFloatOf (get_safe_value row "Freight_charges" (.vFloat 0))
  let total_invoice_amount := total_value + freight_charges
  let base_filename := derive_base_filename awb_number invoice_number
  .ok {
    invoice_number := invoice_number, awb_number := awb_number,
    export_ref := export_ref, invoice_date := invoice_date,
    recipient_name := recipient_name, recipient_address1 := recipient_address1,
    recipient_address2 := recipient_address2, recipient_city := recipient_city,
    recipient_state := recipient_state, recipient_postal_code := recipient_postal_code,
    recipient_country_code := recipient_country_code, recipient_phone := recipient_phone,
    recipient_email := recipient_email, recipient_full_address := recipient_full_address,
    description := description, state_origin := state_origin,
    district_origin := district_origin, hs_code := hs_code,
    country_mfg := country_mfg, net_weight := net_weight,
    quantity := quantity, uom := uom, unit_value := unit_value,
    total_value := total_value, currency := currency,
    freight_charges := freight_charges,
    total_invoice_amount := total_invoice_amount,
    base_filename := base_filename }

/-- One data row of the mother-invoice summary table (app.py lines
290-306): serial text `str(idx + 1)` from the DataFrame index label,
identifier texts via `str()`, numeric cells kept as the converted
numbers (the template renders them at 2 decimals), and the two constant
tax columns. -/
structure MotherRow where
  serial : String
  buyer : Value
  invoice_no : String
  order_id : String
  awb_no : String
  desc_text : String
  net_wt : Rat
  qty : String
  unit_val : Rat
  total_val : Rat
  igst_pct : String
  igst_paid : String
deriving DecidableEq

/-- The header row of the mother-invoice table (app.py line 287). -/
def mother_header : List String :=
  ["S.No", "Buyer", "Invoice No.", "Order ID", "AWB No.", "Description HSN UOM",
   "Net Wt (KG)", "Qty", "Unit Val", "Total Val", "IGST %", "IGST Paid"]

/-- The body of the `for idx, row in df.iterrows()` loop (app.py lines
290-306), evaluated in source order; the three `float(...)` coercions
can raise. -/
def mother_row (idx : Nat) (row : Row) : Except String MotherRow := do
  let desc_text := pyAstypeStr (get_safe_value row "COMMODITY" (.vStr "")) ++ " <br/> "
    ++ pyAstypeStr (get_safe_value row "HS CODE 1" (.vStr "")) ++ " <br/> "
    ++ pyAstypeStr (get_safe_value row "UOM1" (.vStr ""))
  let net_wt ← pyFloatOf (get_safe_value row "Total Shipment weight" (.vFloat 0))
  let unit_val ← pyFloatOf (get_safe_value row "UNIT_VALUE 1" (.vFloat 0))
  let total_val ← pyFloatOf (get_safe_value row "Invoice Value" (.vFloat 0))
  .ok {
    serial := String.mk (natDigits (idx + 1)),
    buyer := get_safe_value row "Recipient_Contact Name" (.vStr ""),
    invoice_no := pyAstypeStr (get_safe_value row "Invoice Number" (.vStr "")),
    order_id := pyAstypeStr (get_safe_value row "Reference_1" (.vStr "")),
    awb_no := pyAstypeStr (get_safe_value row "House AWB No." (.vStr "")),
    desc_text := desc_text, net_wt := net_wt, qty := pyAstypeStr (get_safe_value row "QUANTITY 1" (.vInt 0)),
    unit_val := unit_val, total_val := total_val, igst_pct := "0", igst_paid := "0.0" }

/-- All data rows of the summary table, one per DataFrame row, carrying
the index label of each row (`df.iterrows()` yields index labels, which
keep their original values after `dropna`). -/
def mother_rows (t : List (Nat × Row)) : Except String (List MotherRow) :=
  t.mapM (fun p => mother_row p.1 p.2)

/-- `df[col].astype(float).sum()`: every non-na cell of the column must
convert to float (else ValueError), na cells are skipped by the sum.
Column presence is modelled per cell: a row without the key models a
frame without the column (KeyError). -/
def astype_float_sum (t : List (Nat × Row)) (col : String) : Except String Rat :=
  t.foldr
    (fun p acc => do
      let rest ← acc
      match rowGet p.2 col with
      | none => Except.error "KeyError"
      | some Value.vNone => Except.ok rest
      | some v => do
        let q ← pyFloatOf v
        Except.ok (q + rest))
    (Except.ok 0)

/-- The data of the finished mother invoice: table body (the rendered
table is `mother_header` followed by these rows), and the aggregate
footer (app.py lines 323-332). -/
structure MotherDoc where
  table : List MotherRow
  total_packages : Nat
  total_value : Rat
  total_weight : Rat
  currency : String
deriving DecidableEq

/-- Source `generate_mother_invoice` (app.py lines 273-349), restricted
to the document data it assembles; statements in source order.  The
currency is read from `df.iloc[0]`, which raises IndexError on an empty
frame. -/
def generate_mother_invoice (t : List (Nat × Row)) : Except String MotherDoc := do
  let table ← mother_rows t
  let total_packages := t.length
  let total_value ← astype_float_sum t "Invoice Value"
  let total_weight ← astype_float_sum t "Total Shipment weight"
  let currency ←
    match t with
    | [] => Except.error "IndexError: single positional indexer is out-of-bounds"
    | p :: _ => pySplitHeadVal (get_safe_value p.2 "CURRENCY" (Value.vStr "USD"))
  .ok { table := table, total_packages := total_packages, total_value := total_value,
        total_weight := total_weight, currency := currency }

/-- Source `create_child_invoices_zip` (app.py lines 352-367), as the
list of archive member names in write order: every listed file that is
not the literal "mother_invoice.pdf" and exists on disk at call time is
written once per list occurrence, under its base name.
`existsOnDisk` abstracts `os.path.exists` on the joined path. -/
def create_child_invoices_zip (existsOnDisk : String → Bool) (child_invoice_files : List String) :
    List String :=
  child_invoice_files.filter (fun f => (f != "mother_invoice.pdf") && existsOnDisk f)

/-- Row kept by `df.dropna(subset=['Invoice Number'])`: the cell is
present and not na.  (pandas raises KeyError when the column is absent
from the frame; that path is outside every claim and modelled as a
drop.) -/
def hasInvoice (r : Row) : Bool :=
  match rowGet r "Invoice Number" with
  | some Value.vNone => false
  | some _ => true
  | none => false

/-- The four columns string-coerced by app.py lines 439-441. -/
def id_text_cols : List String :=
  ["Invoice Number", "Recipient_Postal code", "Reference_1", "House AWB No."]

/-- The per-row effect of `df[col] = df[col].astype(str).replace('\.0',
'', regex=True)` over the four id columns: each present cell of such a
column becomes its `astype(str)` text with every ".0" removed (a NaN
cell becomes the text "nan"); absent columns are left alone (`if col in
df.columns`). -/
def coerce_row (r : Row) : Row :=
  r.map (fun p =>
    if p.1 ∈ id_text_cols then (p.1, Value.vStr (id_col_coerce (pyAstypeStr p.2))) else p)

/-- The loaded DataFrame: the parsed rows with their index labels
0, 1, 2, ... (`pd.read_csv` / `pd.concat(..., ignore_index=True)`). -/
def load_table (rows : List Row) : List (Nat × Row) := rows.enum

/-- The in-place cleaning step of `index` (app.py lines 437-441):
`df.dropna(subset=['Invoice Number'], inplace=True)` followed by the
string coercion of the four id columns.  The DataFrame object is
mutated: after this step it holds exactly this table (index labels are
preserved by `dropna`). -/
def clean_table (t : List (Nat × Row)) : List (Nat × Row) :=
  (t.filter (fun p => hasInvoice p.2)).map (fun p => (p.1, coerce_row p.2))

/-- The warning flashed by the per-row exception handler (app.py lines
463-465): f-string over `get_safe_value(row, 'Invoice Number',
'Unknown')` and the exception text. -/
def row_failure_msg (r : Row) (e : String) : String :=
  "Could not generate invoice "
    ++ pyAstypeStr (get_safe_value r "Invoice Number" (Value.vStr "Unknown"))
    ++ ". Error: " ++ e

/-- The generation loop of `index` (app.py lines 448-465), abstracted
over the per-row composition `gen` (in the source,
`generate_individual_invoice`, whose modelled failures are those of
`generate_individual_invoice_data`; the reportlab build can add more).
Returns the generated child filenames and the flashed warnings, both in
row order. -/
def process_rows (gen : Row → Except String String) : List Row → List String × List String
  | [] => ([], [])
  | r :: rest =>
    match gen r with
    | .ok f =>
      let p := process_rows gen rest
      (f :: p.1, p.2)
    | .error e =>
      let p := process_rows gen rest
      (p.1, row_failure_msg r e :: p.2)

/-- Whether `pat` occurs as a contiguous substring of `s`. -/
def occursIn (pat : List Char) : List Char → Bool
  | [] => pat.isEmpty
  | c :: cs => pat.isPrefixOf (c :: cs) || occursIn pat cs

/-- Whether `float(v)` succeeds on this cell value. -/
def floatCoercible (v : Value) : Bool :=
  match pyFloatOf v with
  | .ok _ => true
  | .error _ => false

/-- Whether `int(v)` succeeds on this cell value. -/
def intCoercible (v : Value) : Bool :=
  match pyIntOf v with
  | .ok _ => true
  | .error _ => false

/-- Whether the cell value is a Python string. -/
def isStrVal : Value → Bool
  | .vStr _ => true
  | _ => false

/-!
Theorems.  Each claim of the specification is settled below; helper
lemmas are shared across claims.
-/

theorem isPrefixOf_nil_of_ne {pat : List Char} (h : pat ≠ []) :
    pat.isPrefixOf ([] : List Char) = false := by
  cases pat with
  | nil => exact absurd rfl h
  | cons a l => rfl

theorem removeAllAux_of_not_occurs (pat : List Char) (hpat : pat ≠ []) :
    ∀ (fuel : Nat) (s : List Char), s.length ≤ fuel → occursIn pat s = false →
      removeAllAux pat fuel s = s := by
  intro fuel
  induction fuel with
  | zero => intro s _ _; rfl
  | succ n ih =>
    intro s hlen hocc
    cases s with
    | nil =>
      simp [removeAllAux, isPrefixOf_nil_of_ne hpat]
    | cons c cs =>
      have hsplit : pat.isPrefixOf (c :: cs) = false ∧ occursIn pat cs = false := by
        simpa [occursIn, Bool.or_eq_false_iff] using hocc
      have : ¬ (pat ≠ [] ∧ pat.isPrefixOf (c :: cs) = true) := by
        simp [hsplit.1]
      simp only [removeAllAux, if_neg this]
      have hlen2 : cs.length ≤ n := by simpa using Nat.le_of_succ_le_succ hlen
      rw [ih cs hlen2 hsplit.2]

theorem removeAll_of_not_occurs {pat s : List Char} (hpat : pat ≠ [])
    (h : occursIn pat s = false) : removeAll pat s = s :=
  removeAllAux_of_not_occurs pat hpat s.length s (Nat.le_refl _) h

/-- Claim C3, counterexample: the manufacture-country derivation of the
code is `str.replace`, which removes the literal "-INDIA" anywhere, not
only as a suffix.  On "A-INDIAB", which does not end with "-INDIA", the
claim predicts the string is returned unchanged; the code removes the
interior occurrence and returns "AB" (the suffix-only reading of the
spec, `spec_strip_suffix_india`, indeed leaves it unchanged). -/
theorem c3_suffix_only_counterexample :
    replace_india "A-INDIAB" = "AB"
    ∧ spec_strip_suffix_india "A-INDIAB" = "A-INDIAB"
    ∧ replace_india "A-INDIAB" ≠ "A-INDIAB" := by
  refine ⟨by decide, by decide, by decide⟩

/-- Claim C3, amended: the manufacture-country derivation removes every
non-overlapping occurrence of the literal "-INDIA" anywhere in the
string (not only a trailing one).  The three quoted examples hold:
"CHINA-INDIA" maps to "CHINA", "CHINA" to "CHINA", "INDIA" to "INDIA";
a string with no "-INDIA" substring is returned unchanged; an interior
or repeated occurrence is removed as well ("X-INDIA-INDIAY" maps to
"XY"). -/
theorem c3_replace_india_amended :
    (replace_india "CHINA-INDIA" = "CHINA"
      ∧ replace_india "CHINA" = "CHINA"
      ∧ replace_india "INDIA" = "INDIA"
      ∧ replace_india "X-INDIA-INDIAY" = "XY")
    ∧ (∀ s : String, occursIn "-INDIA".data s.data = false → replace_india s = s) := by
  refine ⟨⟨by decide, by decide, by decide, by decide⟩, ?_⟩
  intro s h
  show String.mk (removeAll "-INDIA".data s.data) = s
  rw [removeAll_of_not_occurs (by decide) h]

/-- Claim C3 witness: the amended general statement applied to the
concrete string "CHINA", which contains no "-INDIA" substring. -/
theorem c3_replace_india_amended_witness : replace_india "CHINA" = "CHINA" :=
  c3_replace_india_amended.2 "CHINA" (by decide)

/-- Claim C9, counterexample: the id-column text coercion is a regex
substitution of the literal ".0" with `re.sub` semantics, which removes
the pattern anywhere, not only at the end.  On "1.05" the claim
predicts no change (the ".0" is not trailing; the spec-worded
`spec_strip_trailing_dot0` indeed leaves it alone); the code removes it
and produces "15". -/
theorem c9_trailing_only_counterexample :
    id_col_coerce "1.05" = "15"
    ∧ spec_strip_trailing_dot0 "1.05" = "1.05"
    ∧ id_col_coerce "1.05" ≠ "1.05" := by
  refine ⟨by decide, by decide, by decide⟩

/-- Claim C9, amended: the text coercion of the invoice-number,
postal-code, reference and AWB columns removes every non-overlapping
occurrence of the literal ".0" anywhere in the stringified value, not
only a trailing one.  The float-artifact case still works ("123.0"
maps to "123", and the coercion applied to a whole cell turns the
float 123.0 into "123"); values without the substring are unchanged;
interior occurrences are removed too ("1.0.0" maps to "1"). -/
theorem c9_id_col_coerce_amended :
    (id_col_coerce "123.0" = "123"
      ∧ id_col_coerce "1.0.0" = "1"
      ∧ id_col_coerce (pyAstypeStr (Value.vFloat 123)) = "123")
    ∧ (∀ s : String, occursIn ".0".data s.data = false → id_col_coerce s = s) := by
  refine ⟨⟨by decide, by decide, by decide⟩, ?_⟩
  intro s h
  show String.mk (removeAll ".0".data s.data) = s
  rw [removeAll_of_not_occurs (by decide) h]

/-- Claim C9 witness: the amended general statement applied to the
concrete string "INV-27", which contains no ".0" substring. -/
theorem c9_id_col_coerce_amended_witness : id_col_coerce "INV-27" = "INV-27" :=
  c9_id_col_coerce_amended.2 "INV-27" (by decide)

theorem sanitize_char_ne (c : Char) :
    (if (if c = '/' then '_' else c) = '\\' then '_' else (if c = '/' then '_' else c)) ≠ '/'
    ∧ (if (if c = '/' then '_' else c) = '\\' then '_' else (if c = '/' then '_' else c)) ≠ '\\' := by
  by_cases h1 : c = '/'
  · simp [h1]
  · by_cases h2 : c = '\\'
    · simp [h1, h2]
    · simp only [if_neg h1, if_neg h2]
      exact ⟨h1, h2⟩

theorem slash_free_map (l : List Char) :
    ('/' ∉ (l.map (fun c => if c = '/' then '_' else c)).map (fun c => if c = '\\' then '_' else c))
    ∧ ('\\' ∉ (l.map (fun c => if c = '/' then '_' else c)).map (fun c => if c = '\\' then '_' else c)) := by
  induction l with
  | nil => exact ⟨by simp, by simp⟩
  | cons c cs ih =>
    constructor
    · rw [List.map_cons, List.map_cons, List.mem_cons]
      push_neg
      exact ⟨Ne.symm (sanitize_char_ne c).1, ih.1⟩
    · rw [List.map_cons, List.map_cons, List.mem_cons]
      push_neg
      exact ⟨Ne.symm (sanitize_char_ne c).2, ih.2⟩

/-- Claim C4, counterexample: the fallback base name
`invoice_{invoiceNumber}` is not sanitized, so an invoice number holding
a slash survives into the produced filename: with AWB "N/A" and invoice
number "A/B" the produced name is "invoice_A/B.pdf", which contains a
forward slash — refuting the claim that the derived name never contains
one for every AWB value and every fallback invoice number. -/
theorem c4_path_separator_counterexample :
    invoice_pdf_filename (Value.vStr "N/A") (Value.vStr "A/B") = "invoice_A/B.pdf"
    ∧ '/' ∈ (invoice_pdf_filename (Value.vStr "N/A") (Value.vStr "A/B")).data := by
  exact ⟨by decide, by decide⟩

/-- Claim C4, amended: when the AWB value is truthy and not the literal
"N/A", the produced filename is the AWB with every '/' and '\'
replaced by '_' plus ".pdf" and is free of both separator characters
("123/456" yields "123_456.pdf"); otherwise the base name is
`invoice_{invoiceNumber}` with ".pdf" appended ("N/A" with "INV1"
yields "invoice_INV1.pdf"), where the invoice number is used verbatim —
so the no-separator guarantee holds for the fallback only when the
invoice number itself contains no separator. -/
theorem c4_filename_amended :
    (invoice_pdf_filename (Value.vStr "123/456") (Value.vStr "INV1") = "123_456.pdf"
      ∧ invoice_pdf_filename (Value.vStr "N/A") (Value.vStr "INV1") = "invoice_INV1.pdf")
    ∧ (∀ awb inv : Value, pyTruthy awb = true → valueEqStr awb "N/A" = false →
        '/' ∉ (invoice_pdf_filename awb inv).data
          ∧ '\\' ∉ (invoice_pdf_filename awb inv).data)
    ∧ (∀ inv : String,
        invoice_pdf_filename (Value.vStr "N/A") (Value.vStr inv)
          = ("invoice_" ++ inv) ++ ".pdf"
        ∧ ('/' ∉ inv.data → '\\' ∉ inv.data →
            '/' ∉ (invoice_pdf_filename (Value.vStr "N/A") (Value.vStr inv)).data
              ∧ '\\' ∉ (invoice_pdf_filename (Value.vStr "N/A") (Value.vStr inv)).data)) := by
  refine ⟨⟨by decide, by decide⟩, ?_, ?_⟩
  · intro awb inv h1 h2
    have hcond : (pyTruthy awb && !(valueEqStr awb "N/A")) = true := by simp [h1, h2]
    have hfile : invoice_pdf_filename awb inv
        = String.mk (((pyAstypeStr awb).data.map
            (fun c => if c = '/' then '_' else c)).map
            (fun c => if c = '\\' then '_' else c)) ++ ".pdf" := by
      simp [invoice_pdf_filename, derive_base_filename, hcond]
    rw [hfile]
    constructor <;> intro hmem <;> rw [String.data_append] at hmem <;>
      rcases List.mem_append.mp hmem with h | h
    · exact (slash_free_map (pyAstypeStr awb).data).1 h
    · exact absurd h (by decide)
    · exact (slash_free_map (pyAstypeStr awb).data).2 h
    · exact absurd h (by decide)
  · intro inv
    have hfile : invoice_pdf_filename (Value.vStr "N/A") (Value.vStr inv)
        = ("invoice_" ++ inv) ++ ".pdf" := by
      simp [invoice_pdf_filename, derive_base_filename, pyTruthy, valueEqStr, pyAstypeStr]
    refine ⟨hfile, ?_⟩
    intro hs hb
    rw [hfile]
    constructor
    · intro hmem
      simp only [String.data_append, List.mem_append] at hmem
      rcases hmem with (h | h) | h
      · exact absurd h (by decide)
      · exact hs h
      · exact absurd h (by decide)
    · intro hmem
      simp only [String.data_append, List.mem_append] at hmem
      rcases hmem with (h | h) | h
      · exact absurd h (by decide)
      · exact hb h
      · exact absurd h (by decide)

/-- Claim C4 witness: the amended no-separator guarantee applied to the
concrete AWB "123/456" (truthy, not "N/A"). -/
theorem c4_filename_amended_witness :
    '/' ∉ (invoice_pdf_filename (Value.vStr "123/456") (Value.vStr "INV1")).data
    ∧ '\\' ∉ (invoice_pdf_filename (Value.vStr "123/456") (Value.vStr "INV1")).data :=
  c4_filename_amended.2.1 (Value.vStr "123/456") (Value.vStr "INV1") (by decide) (by decide)

/-- Claim C5, counterexample: invoked on an InvoiceSet of size zero the
summary composer does not complete: after building an empty table body
and zero sums it evaluates `df.iloc[0]` to read the currency of the
first row, which raises IndexError on an empty frame. -/
theorem c5_empty_set_counterexample :
    generate_mother_invoice [] =
      Except.error "IndexError: single positional indexer is out-of-bounds" := by
  decide

/-- Claim C5, amended: on an InvoiceSet of size zero the summary
composer raises (IndexError from `df.iloc[0]` while reading the
currency) instead of completing; the table body it assembles before
that point has no data rows, so the document it would have produced
holds only the header row.  (In the application the caller only invokes
the composer on a non-empty frame.) -/
theorem c5_empty_set_amended :
    generate_mother_invoice [] =
      Except.error "IndexError: single positional indexer is out-of-bounds"
    ∧ mother_rows ([] : List (Nat × Row)) = Except.ok [] := by
  exact ⟨by decide, by decide⟩

theorem zip_count_of_kept (ex : String → Bool) (files : List String) (f : String)
    (h1 : f ≠ "mother_invoice.pdf") (h2 : ex f = true) :
    (create_child_invoices_zip ex files).count f = files.count f := by
  have hp : ((f != "mother_invoice.pdf") && ex f) = true := by
    simp [bne_iff_ne, h1, h2]
  exact List.count_filter hp

/-- Claim C7, counterexample: a filename listed twice is written twice,
so it appears twice among the archive members, refuting "each appearing
exactly once" for every list of filenames.  (Two rows sharing one AWB
produce exactly such a duplicated list in the application.) -/
theorem c7_duplicate_entry_counterexample :
    create_child_invoices_zip (fun _ => true) ["a.pdf", "a.pdf"] = ["a.pdf", "a.pdf"]
    ∧ (create_child_invoices_zip (fun _ => true) ["a.pdf", "a.pdf"]).count "a.pdf" = 2 := by
  exact ⟨by decide, by decide⟩

/-- Claim C7, amended: the archive members are exactly the listed
filenames other than "mother_invoice.pdf" that exist on disk at call
time, each stored under its base name and appearing once per occurrence
in the list ("mother_invoice.pdf" is never a member even when passed
explicitly, and a listed filename missing from disk is skipped without
error); when the list is duplicate-free every such filename appears
exactly once. -/
theorem c7_zip_members_amended :
    (∀ (ex : String → Bool) (files : List String),
      "mother_invoice.pdf" ∉ create_child_invoices_zip ex files)
    ∧ (∀ (ex : String → Bool) (files : List String) (f : String),
        f ∈ create_child_invoices_zip ex files
          ↔ f ∈ files ∧ f ≠ "mother_invoice.pdf" ∧ ex f = true)
    ∧ (∀ (ex : String → Bool) (files : List String) (f : String),
        f ≠ "mother_invoice.pdf" → ex f = true →
        (create_child_invoices_zip ex files).count f = files.count f)
    ∧ (∀ (ex : String → Bool) (files : List String) (f : String),
        files.Nodup → f ∈ files → f ≠ "mother_invoice.pdf" → ex f = true →
        (create_child_invoices_zip ex files).count f = 1) := by
  refine ⟨?_, ?_, zip_count_of_kept, ?_⟩
  · intro ex files hmem
    rcases List.mem_filter.mp hmem with ⟨-, hp⟩
    simp [bne_iff_ne] at hp
  · intro ex files f
    constructor
    · intro hmem
      rcases List.mem_filter.mp hmem with ⟨hin, hp⟩
      rcases (Bool.and_eq_true _ _).mp hp with ⟨hne, hex⟩
      exact ⟨hin, bne_iff_ne.mp hne, hex⟩
    · intro ⟨hin, hne, hex⟩
      exact List.mem_filter.mpr ⟨hin, by simp [bne_iff_ne, hne, hex]⟩
  · intro ex files f hnd hin hne hex
    rw [zip_count_of_kept ex files f hne hex]
    exact List.count_eq_one_of_mem hnd hin

/-- Claim C7 witness: the amended exact-count statement applied to a
concrete duplicate-free list containing "a.pdf", "gone.pdf" (absent
from disk) and "mother_invoice.pdf". -/
theorem c7_zip_members_amended_witness :
    (create_child_invoices_zip (fun f => f != "gone.pdf")
      ["a.pdf", "gone.pdf", "mother_invoice.pdf"]).count "a.pdf" = 1 :=
  c7_zip_members_amended.2.2.2 (fun f => f != "gone.pdf")
    ["a.pdf", "gone.pdf", "mother_invoice.pdf"] "a.pdf"
    (by decide) (by decide) (by decide) (by decide)

/-- Claim C6, counterexample: the loaded table is mutated right after
load by the cleaning step of `index`: `dropna(..., inplace=True)`
removes a row whose invoice number is NaN, and the id-column coercion
rewrites a float invoice number 123.0 into the string "123" — in both
cases the table afterwards differs from the loaded one. -/
theorem c6_mutation_counterexample :
    clean_table (load_table [[("Invoice Number", Value.vNone)]]) = []
    ∧ clean_table (load_table [[("Invoice Number", Value.vNone)]])
        ≠ load_table [[("Invoice Number", Value.vNone)]]
    ∧ clean_table (load_table [[("Invoice Number", Value.vFloat 123)]])
        = [(0, [("Invoice Number", Value.vStr "123")])]
    ∧ clean_table (load_table [[("Invoice Number", Value.vFloat 123)]])
        ≠ load_table [[("Invoice Number", Value.vFloat 123)]] := by
  exact ⟨by decide, by decide, by decide, by decide⟩

/-- Claim C6, amended: the loaded table is mutated exactly once, by the
in-place cleaning step (dropping rows whose invoice number is na and
string-coercing the four id columns); a table that is already in
cleaned form — every row has a present invoice number and the id-column
coercion leaves every row unchanged — passes through the cleaning
unchanged, and the later steps (normalization, composition, packaging)
are modelled as pure readers of the cleaned table. -/
theorem c6_read_only_amended :
    ∀ rows : List Row,
      (∀ p ∈ load_table rows, hasInvoice p.2 = true) →
      (∀ p ∈ load_table rows, coerce_row p.2 = p.2) →
      clean_table (load_table rows) = load_table rows := by
  intro rows h1 h2
  unfold clean_table
  rw [List.filter_eq_self.mpr h1]
  have hmap : ∀ (l : List (Nat × Row)), (∀ p ∈ l, coerce_row p.2 = p.2) →
      l.map (fun p => (p.1, coerce_row p.2)) = l := by
    intro l
    induction l with
    | nil => intro _; rfl
    | cons a as ih =>
      intro h
      have ha := h a (by simp)
      have hrest := ih (fun p hp => h p (by simp [hp]))
      simp [ha, hrest]
  exact hmap _ h2

/-- Claim C6 witness: a concrete already-clean table (one row, string
invoice number without float artifacts) is left unchanged. -/
theorem c6_read_only_amended_witness :
    clean_table (load_table [[("Invoice Number", Value.vStr "INV1")]])
      = load_table [[("Invoice Number", Value.vStr "INV1")]] :=
  c6_read_only_amended [[("Invoice Number", Value.vStr "INV1")]] (by decide) (by decide)

/-- Claim C8: the generation loop of `index` isolates a per-row
composition failure.  The generated filenames are exactly those of the
rows whose composition succeeds (in row order, so rows after a failing
one are still generated), the flashed warnings are exactly one message
per failing row, splitting around a failing row leaves the files of the
other rows intact and puts that row's warning in the output, and the
warning names the row's invoice number — the default "Unknown" when the
invoice-number cell is absent or na. -/
theorem c8_row_failure_isolation :
    (∀ (gen : Row → Except String String) (rows : List Row),
      (process_rows gen rows).1 = rows.filterMap (fun r => (gen r).toOption)
      ∧ (process_rows gen rows).2
          = rows.filterMap (fun r =>
              match gen r with
              | .error e => some (row_failure_msg r e)
              | .ok _ => none))
    ∧ (∀ (gen : Row → Except String String) (pre suf : List Row) (r : Row) (e : String),
        gen r = .error e →
        (process_rows gen (pre ++ r :: suf)).1
            = (process_rows gen pre).1 ++ (process_rows gen suf).1
        ∧ row_failure_msg r e ∈ (process_rows gen (pre ++ r :: suf)).2)
    ∧ (∀ (r : Row) (e : String),
        (rowGet r "Invoice Number" = none ∨ rowGet r "Invoice Number" = some Value.vNone) →
        row_failure_msg r e = "Could not generate invoice Unknown. Error: " ++ e) := by
  have hchar : ∀ (gen : Row → Except String String) (rows : List Row),
      (process_rows gen rows).1 = rows.filterMap (fun r => (gen r).toOption)
      ∧ (process_rows gen rows).2
          = rows.filterMap (fun r =>
              match gen r with
              | .error e => some (row_failure_msg r e)
              | .ok _ => none) := by
    intro gen rows
    induction rows with
    | nil => exact ⟨rfl, rfl⟩
    | cons r rest ih =>
      cases hg : gen r with
      | ok f =>
        constructor
        · simp [process_rows, hg, List.filterMap_cons, ih.1, Except.toOption]
        · simp [process_rows, hg, List.filterMap_cons, ih.2]
      | error e =>
        constructor
        · simp [process_rows, hg, List.filterMap_cons, ih.1, Except.toOption]
        · simp [process_rows, hg, List.filterMap_cons, ih.2]
  refine ⟨hchar, ?_, ?_⟩
  · intro gen pre suf r e hg
    constructor
    · rw [(hchar gen (pre ++ r :: suf)).1, List.filterMap_append, List.filterMap_cons,
        (hchar gen pre).1, (hchar gen suf).1, hg]
      rfl
    · rw [(hchar gen (pre ++ r :: suf)).2, List.filterMap_append, List.filterMap_cons, hg]
      simp
  · intro r e h
    unfold row_failure_msg get_safe_value
    rcases h with h | h <;> rw [h] <;> rfl

/-- Claim C8 witness: the attribution and continuation statements
applied to a concrete failing middle row with no invoice-number cell,
between two succeeding rows. -/
theorem c8_row_failure_isolation_witness :
    row_failure_msg [] "boom" = "Could not generate invoice Unknown. Error: boom"
    ∧ (process_rows (fun r => if r.isEmpty then Except.error "boom" else Except.ok "f.pdf")
        ([[("A", Value.vStr "x")]] ++ ([] : Row) :: [[("B", Value.vStr "y")]])).1
      = (process_rows (fun r => if r.isEmpty then Except.error "boom" else Except.ok "f.pdf")
          [[("A", Value.vStr "x")]]).1
        ++ (process_rows (fun r => if r.isEmpty then Except.error "boom" else Except.ok "f.pdf")
          [[("B", Value.vStr "y")]]).1 :=
  ⟨c8_row_failure_isolation.2.2 [] "boom" (Or.inl rfl),
   (c8_row_failure_isolation.2.1
      (fun r => if r.isEmpty then Except.error "boom" else Except.ok "f.pdf")
      [[("A", Value.vStr "x")]] [[("B", Value.vStr "y")]] [] "boom" rfl).1⟩

theorem mother_row_serial (idx : Nat) (row : Row) (m : MotherRow)
    (hm : mother_row idx row = Except.ok m) :
    m.serial = String.mk (natDigits (idx + 1)) := by
  unfold mother_row at hm
  simp only [bind, Except.bind] at hm
  cases h1 : pyFloatOf (get_safe_value row "Total Shipment weight" (Value.vFloat 0)) with
  | error e => rw [h1] at hm; simp at hm
  | ok q1 =>
    rw [h1] at hm
    cases h2 : pyFloatOf (get_safe_value row "UNIT_VALUE 1" (Value.vFloat 0)) with
    | error e => rw [h2] at hm; simp at hm
    | ok q2 =>
      rw [h2] at hm
      cases h3 : pyFloatOf (get_safe_value row "Invoice Value" (Value.vFloat 0)) with
      | error e => rw [h3] at hm; simp at hm
      | ok q3 =>
        rw [h3] at hm
        simp only [Except.ok.injEq] at hm
        subst hm
        rfl

/-- Claim C10: in the mother document, the serial cell of each data row
is `str(idx + 1)` over the DataFrame index label, which `dropna`
preserves from the loaded table — so serials follow the original
positions of the surviving rows, not their positions among survivors.
Concretely, a three-row table whose first row lacks its invoice number
yields serials "2", "3": the column skips the dropped position and does
not start at 1. -/
theorem c10_mother_serials :
    (∀ (t : List (Nat × Row)) (mr : List MotherRow),
      mother_rows t = Except.ok mr →
      mr.map (fun m => m.serial) = t.map (fun p => String.mk (natDigits (p.1 + 1))))
    ∧ (∀ rows : List Row,
        (clean_table (load_table rows)).map (fun p => p.1)
          = ((load_table rows).filter (fun p => hasInvoice p.2)).map (fun p => p.1))
    ∧ (mother_rows (clean_table (load_table
        [[("Invoice Number", Value.vNone)],
         [("Invoice Number", Value.vStr "A")],
         [("Invoice Number", Value.vStr "B")]]))).map (fun l => l.map (fun m => m.serial))
      = Except.ok ["2", "3"] := by
  refine ⟨?_, ?_, by decide⟩
  · intro t
    induction t with
    | nil =>
      intro mr h
      simp only [mother_rows, List.mapM_nil, pure, Except.pure, Except.ok.injEq] at h
      subst h
      rfl
    | cons p rest ih =>
      intro mr h
      rw [mother_rows, List.mapM_cons] at h
      simp only [bind, Except.bind, pure, Except.pure] at h
      cases h1 : mother_row p.1 p.2 with
      | error e => rw [h1] at h; simp at h
      | ok x =>
        rw [h1] at h
        cases h2 : rest.mapM (fun p => mother_row p.1 p.2) with
        | error e => rw [h2] at h; simp at h
        | ok xs =>
          rw [h2] at h
          simp only [Except.ok.injEq] at h
          subst h
          simp only [List.map_cons]
          rw [mother_row_serial p.1 p.2 x h1, ih xs h2]
  · intro rows
    unfold clean_table
    rw [List.map_map]
    rfl

/-- Claim C10 witness: the serial characterization applied to the
concrete one-row table carrying index label 4, whose serial cell is
"5". -/
theorem c10_mother_serials_witness :
    [({ serial := "5", buyer := Value.vStr "", invoice_no := "", order_id := "",
        awb_no := "", desc_text := " <br/>  <br/> ", net_wt := 0, qty := "0",
        unit_val := 0, total_val := 0, igst_pct := "0", igst_paid := "0.0" } :
          MotherRow)].map (fun m => m.serial)
      = [(4, ([] : Row))].map (fun p => String.mk (natDigits (p.1 + 1))) :=
  c10_mother_serials.1 [(4, ([] : Row))] _ (by decide)

theorem isStrVal_exists {v : Value} (h : isStrVal v = true) : ∃ s, v = Value.vStr s := by
  cases v with
  | vStr s => exact ⟨s, rfl⟩
  | vNone => simp [isStrVal] at h
  | vInt n => simp [isStrVal] at h
  | vFloat q => simp [isStrVal] at h

theorem floatCoercible_exists {v : Value} (h : floatCoercible v = true) :
    ∃ q, pyFloatOf v = Except.ok q := by
  unfold floatCoercible at h
  cases hf : pyFloatOf v with
  | ok q => exact ⟨q, rfl⟩
  | error e => rw [hf] at h; simp at h

theorem intCoercible_exists {v : Value} (h : intCoercible v = true) :
    ∃ n, pyIntOf v = Except.ok n := by
  unfold intCoercible at h
  cases hf : pyIntOf v with
  | ok n => exact ⟨n, rfl⟩
  | error e => rw [hf] at h; simp at h

theorem mapM_join_ok :
    ∀ (l : List Value), (∀ v ∈ l, isStrVal v = true) →
      ∃ ss, l.mapM pyJoinElem = Except.ok ss := by
  intro l
  induction l with
  | nil => intro _; exact ⟨[], rfl⟩
  | cons v vs ih =>
    intro h
    obtain ⟨s, hs⟩ := isStrVal_exists (h v (by simp))
    obtain ⟨ss, hss⟩ := ih (fun w hw => h w (by simp [hw]))
    refine ⟨s :: ss, ?_⟩
    rw [List.mapM_cons, hs]
    simp only [pyJoinElem, bind, Except.bind, pure, Except.pure, hss]

theorem join3_ok (a1 a2 : Value) (c : String)
    (h1 : pyTruthy a1 = false ∨ isStrVal a1 = true)
    (h2 : pyTruthy a2 = false ∨ isStrVal a2 = true) :
    ∃ ss, ([a1, a2, Value.vStr c].filter pyTruthy).mapM pyJoinElem = Except.ok ss := by
  apply mapM_join_ok
  intro v hv
  rcases List.mem_filter.mp hv with ⟨hmem, htr⟩
  simp only [List.mem_cons, List.not_mem_nil, or_false] at hmem
  rcases hmem with rfl | rfl | rfl
  · rcases h1 with hf | hs
    · simp [hf] at htr
    · exact hs
  · rcases h2 with hf | hs
    · simp [hf] at htr
    · exact hs
  · rfl

/-- Claim C2, counterexample: a numeric coercion applied to a present
but unparseable value raises instead of falling back to the default:
with the cell "UNIT_Weight 1" holding the string "abc",
`float(get_safe_value(row, 'UNIT_Weight 1', 0.0))` raises ValueError
and the exception escapes row normalization. -/
theorem c2_coercion_raises_counterexample :
    generate_individual_invoice_data [("UNIT_Weight 1", Value.vStr "abc")] "T"
      = Except.error "ValueError: could not convert string to float" := by
  rfl

/-- Claim C2, amended: row normalization is exception free only when
every present value fed to a coercion or string operation supports it —
the five numeric cells (weight, quantity, unit value, invoice value,
freight) must be absent, na, or parseable, and the country,
manufacture-country, currency and kept address-line cells must be
strings.  Under those conditions normalization completes for every row,
substituting the documented defaults for missing or na fields; a
present unparseable numeric value instead raises (see the
counterexample), caught only by the per-row handler in `index`. -/
theorem c2_normalization_amended (row : Row) (today : String)
    (hcc : isStrVal (get_safe_value row "Recipient_Country" (Value.vStr "")) = true)
    (ha1 : pyTruthy (get_safe_value row "Recipient_Address Line 1" (Value.vStr "")) = false
      ∨ isStrVal (get_safe_value row "Recipient_Address Line 1" (Value.vStr "")) = true)
    (ha2 : pyTruthy (get_safe_value row "Recipient_Address Line 2" (Value.vStr "")) = false
      ∨ isStrVal (get_safe_value row "Recipient_Address Line 2" (Value.vStr "")) = true)
    (hmfg : isStrVal (get_safe_value row "Country of Manufacture" (Value.vStr "")) = true)
    (hw : floatCoercible (get_safe_value row "UNIT_Weight 1" (Value.vFloat 0)) = true)
    (hq : intCoercible (get_safe_value row "QUANTITY 1" (Value.vInt 0)) = true)
    (huv : floatCoercible (get_safe_value row "UNIT_VALUE 1" (Value.vFloat 0)) = true)
    (htv : floatCoercible (get_safe_value row "Invoice Value" (Value.vFloat 0)) = true)
    (hcur : isStrVal (get_safe_value row "CURRENCY" (Value.vStr "USD")) = true)
    (hfr : floatCoercible (get_safe_value row "Freight_charges" (Value.vFloat 0)) = true) :
    ∃ nd, generate_individual_invoice_data row today = Except.ok nd := by
  obtain ⟨s1, e1⟩ := isStrVal_exists hcc
  obtain ⟨s2, e2⟩ := isStrVal_exists hmfg
  obtain ⟨s3, e3⟩ := isStrVal_exists hcur
  obtain ⟨q1, f1⟩ := floatCoercible_exists hw
  obtain ⟨n1, g1⟩ := intCoercible_exists hq
  obtain ⟨q2, f2⟩ := floatCoercible_exists huv
  obtain ⟨q3, f3⟩ := floatCoercible_exists htv
  obtain ⟨q4, f4⟩ := floatCoercible_exists hfr
  obtain ⟨ss, hss⟩ := join3_ok
    (get_safe_value row "Recipient_Address Line 1" (Value.vStr ""))
    (get_safe_value row "Recipient_Address Line 2" (Value.vStr ""))
    (pyAstypeStr (get_safe_value row "Recipient_City" (Value.vStr "")) ++ " "
      ++ pyAstypeStr (get_safe_value row "Recipient_State" (Value.vStr "")) ++ " "
      ++ pyAstypeStr (get_safe_value row "Recipient_Postal code" (Value.vStr "")) ++ " "
      ++ String.mk (s1.data.takeWhile (fun c => c ≠ '-')))
    ha1 ha2
  cases hg : generate_individual_invoice_data row today with
  | ok nd => exact ⟨nd, rfl⟩
  | error e =>
    exfalso
    unfold generate_individual_invoice_data at hg
    simp only [bind, Except.bind, e1, e2, e3, pySplitHeadVal, pyReplaceIndiaVal,
      hss, f1, g1, f2, f3, f4] at hg
    exact Except.noConfusion hg

/-- Claim C2 witness: the amended statement applied to a concrete row
whose numeric cells are an int, a parseable decimal string and absent
cells, discharging every hypothesis by evaluation. -/
theorem c2_normalization_amended_witness :
    ∃ nd, generate_individual_invoice_data
      [("Invoice Number", Value.vStr "INV1"), ("QUANTITY 1", Value.vInt 3),
       ("CURRENCY", Value.vStr "USD-US Dollar"), ("Invoice Value", Value.vStr "12.5")] "T"
      = Except.ok nd :=
  c2_normalization_amended
    [("Invoice Number", Value.vStr "INV1"), ("QUANTITY 1", Value.vInt 3),
     ("CURRENCY", Value.vStr "USD-US Dollar"), ("Invoice Value", Value.vStr "12.5")] "T"
    (by decide) (by decide) (by decide) (by decide) (by decide)
    (by decide) (by decide) (by decide) (by decide) (by decide)

theorem natDigitsAux_eq : ∀ (f : Nat), ∀ n, n < f → natDigitsAux f n = natDigits n := by
  intro f
  induction f using Nat.strong_induction_on with
  | _ f ih =>
    intro n hn
    cases f with
    | zero => omega
    | succ g =>
      have e1 : natDigitsAux (g + 1) n
          = if n < 10 then [digitChar n] else natDigitsAux g (n / 10) ++ [digitChar (n % 10)] := rfl
      have e2 : natDigits n
          = if n < 10 then [digitChar n] else natDigitsAux n (n / 10) ++ [digitChar (n % 10)] := rfl
      rw [e1, e2]
      by_cases h10 : n < 10
      · simp [h10]
      · have hd : n / 10 < n := Nat.div_lt_self (by omega) (by omega)
        rw [if_neg h10, if_neg h10, ih g (by omega) (n / 10) (by omega),
          ih n (by omega) (n / 10) hd]

theorem natDigits_small {n : Nat} (h : n < 10) : natDigits n = [digitChar n] := by
  have e2 : natDigits n
      = if n < 10 then [digitChar n] else natDigitsAux n (n / 10) ++ [digitChar (n % 10)] := rfl
  rw [e2, if_pos h]

theorem natDigits_step {n : Nat} (h : 10 ≤ n) :
    natDigits n = natDigits (n / 10) ++ [digitChar (n % 10)] := by
  have e2 : natDigits n
      = if n < 10 then [digitChar n] else natDigitsAux n (n / 10) ++ [digitChar (n % 10)] := rfl
  rw [e2, if_neg (by omega), natDigitsAux_eq n (n / 10) (Nat.div_lt_self (by omega) (by omega))]

theorem zeroPad_length : ∀ (k r : Nat), (zeroPad k r).length = k := by
  intro k
  induction k with
  | zero => intro r; rfl
  | succ k ih => intro r; simp [zeroPad, ih]

theorem zeroPad_split : ∀ (k j r : Nat),
    zeroPad (j + k) r = zeroPad j (r / 10 ^ k) ++ zeroPad k (r % 10 ^ k) := by
  intro k
  induction k with
  | zero => intro j r; simp [zeroPad, Nat.mod_one]
  | succ k ih =>
    intro j r
    have hl : zeroPad (j + (k + 1)) r = zeroPad (j + k) (r / 10) ++ [digitChar (r % 10)] := rfl
    rw [hl, ih j (r / 10)]
    have h1 : r / 10 / 10 ^ k = r / 10 ^ (k + 1) := by
      rw [Nat.div_div_eq_div_mul, pow_succ, Nat.mul_comm (10 : Nat) (10 ^ k)]
    have h2 : r / 10 % 10 ^ k = r % 10 ^ (k + 1) / 10 := by
      rw [pow_succ, Nat.mul_comm (10 ^ k) 10, Nat.mod_mul_right_div_self]
    have h3 : r % 10 = r % 10 ^ (k + 1) % 10 := by
      rw [Nat.mod_mod_of_dvd r (dvd_pow_self 10 (Nat.succ_ne_zero k))]
    have hr : zeroPad (k + 1) (r % 10 ^ (k + 1))
        = zeroPad k (r % 10 ^ (k + 1) / 10) ++ [digitChar (r % 10 ^ (k + 1) % 10)] := rfl
    rw [h1, h2, h3, hr, List.append_assoc]

theorem natDigits_split : ∀ (k a r : Nat), 0 < a → r < 10 ^ k →
    natDigits (a * 10 ^ k + r) = natDigits a ++ zeroPad k r := by
  intro k
  induction k with
  | zero =>
    intro a r _ hr
    have : r = 0 := by omega
    subst this
    simp [zeroPad]
  | succ k ih =>
    intro a r ha hr
    have hpow : (0:Nat) < 10 ^ k := Nat.pos_pow_of_pos k (by omega)
    have hbig : 10 ≤ a * 10 ^ (k + 1) + r := by
      have : 10 ^ (k + 1) ≤ a * 10 ^ (k + 1) := Nat.le_mul_of_pos_left _ ha
      have h10 : 10 ≤ 10 ^ (k + 1) := by
        calc 10 = 10 ^ 1 := by norm_num
        _ ≤ 10 ^ (k + 1) := Nat.pow_le_pow_right (by omega) (by omega)
      omega
    rw [natDigits_step hbig]
    have hform : a * 10 ^ (k + 1) + r = 10 * (a * 10 ^ k) + r := by ring
    have hdiv : (a * 10 ^ (k + 1) + r) / 10 = a * 10 ^ k + r / 10 := by
      rw [hform, Nat.mul_add_div (by omega)]
    have hmod : (a * 10 ^ (k + 1) + r) % 10 = r % 10 := by
      rw [hform, Nat.mul_add_mod]
    have hrlt : r / 10 < 10 ^ k := by
      rw [Nat.div_lt_iff_lt_mul (by omega)]
      calc r < 10 ^ (k + 1) := hr
      _ = 10 ^ k * 10 := by rw [pow_succ]
    rw [hdiv, hmod, ih a (r / 10) ha hrlt]
    have hzp : zeroPad (k + 1) r = zeroPad k (r / 10) ++ [digitChar (r % 10)] := rfl
    rw [hzp, List.append_assoc]

theorem dc_toNat_sub {n : Nat} (h : n < 10) : (digitChar n).toNat - 48 = n := by
  interval_cases n <;> decide

theorem dc_isDigit {n : Nat} (h : n < 10) : (digitChar n).isDigit = true := by
  interval_cases n <;> decide

theorem dc_ne_one {n : Nat} (h : n < 10) (hne : n ≠ 1) : digitChar n ≠ '1' := by
  interval_cases n <;> simp_all <;> decide

theorem dc_ne_three {n : Nat} (h : n < 10) (hne : n ≠ 3) : digitChar n ≠ '3' := by
  interval_cases n <;> simp_all <;> decide

theorem dc_ge_one {n : Nat} (h : n < 10) (h1 : 1 ≤ n) : '1' ≤ digitChar n := by
  interval_cases n <;> simp_all <;> decide

theorem dc_le_nine {n : Nat} (h : n < 10) : digitChar n ≤ '9' := by
  interval_cases n <;> decide

theorem dc_ge_zero {n : Nat} (h : n < 10) : '0' ≤ digitChar n := by
  interval_cases n <;> decide

theorem dc_le_two {n : Nat} (h : n ≤ 2) : digitChar n ≤ '2' := by
  interval_cases n <;> decide

theorem firstSome_cons_some {α β : Type} {a : α} {l : List α} {f : α → Option β} {b : β}
    (h : f a = some b) : firstSome (a :: l) f = some b := by
  simp [firstSome, h]

theorem yearCand_zeroPad (y : Nat) (hy : y < 10000) : yearCand (zeroPad 4 y) = some (y, []) := by
  have e4 : zeroPad 4 y
      = [digitChar (y / 10 / 10 / 10 % 10), digitChar (y / 10 / 10 % 10),
         digitChar (y / 10 % 10), digitChar (y % 10)] := rfl
  rw [e4]
  have hstep : yearCand [digitChar (y / 10 / 10 / 10 % 10), digitChar (y / 10 / 10 % 10),
      digitChar (y / 10 % 10), digitChar (y % 10)]
      = if (digitChar (y / 10 / 10 / 10 % 10)).isDigit = true
          ∧ (digitChar (y / 10 / 10 % 10)).isDigit = true
          ∧ (digitChar (y / 10 % 10)).isDigit = true
          ∧ (digitChar (y % 10)).isDigit = true then
          some (digitsVal [digitChar (y / 10 / 10 / 10 % 10), digitChar (y / 10 / 10 % 10),
            digitChar (y / 10 % 10), digitChar (y % 10)], [])
        else none := rfl
  rw [hstep, if_pos ⟨dc_isDigit (Nat.mod_lt _ (by omega)), dc_isDigit (Nat.mod_lt _ (by omega)),
    dc_isDigit (Nat.mod_lt _ (by omega)), dc_isDigit (Nat.mod_lt _ (by omega))⟩]
  have hval : digitsVal [digitChar (y / 10 / 10 / 10 % 10), digitChar (y / 10 / 10 % 10),
      digitChar (y / 10 % 10), digitChar (y % 10)] = y := by
    unfold digitsVal
    simp only [List.foldl_cons, List.foldl_nil]
    rw [dc_toNat_sub (Nat.mod_lt _ (by omega)), dc_toNat_sub (Nat.mod_lt _ (by omega)),
      dc_toNat_sub (Nat.mod_lt _ (by omega)), dc_toNat_sub (Nat.mod_lt _ (by omega))]
    omega
  rw [hval]

theorem monthCands_small (m : Nat) (h1 : 1 ≤ m) (h2 : m ≤ 9) (rest : List Char) :
    monthCands ('0' :: digitChar m :: rest) = [(m, rest)] := by
  interval_cases m <;> rfl

theorem monthCands_big (m : Nat) (h1 : 10 ≤ m) (h2 : m ≤ 12) (rest : List Char) :
    monthCands ('1' :: digitChar (m - 10) :: rest)
      = [(m, rest), (1, digitChar (m - 10) :: rest)] := by
  interval_cases m <;> rfl

theorem dayCands_head (d : Nat) (h1 : 1 ≤ d) (h2 : d ≤ 31) (rest : List Char) :
    ∃ tl, dayCands (zeroPad 2 d ++ rest) = (d, rest) :: tl := by
  interval_cases d <;> exact ⟨_, rfl⟩

theorem regexMatch_small (m d y : Nat) (hm1 : 1 ≤ m) (hm2 : m ≤ 9) (hd1 : 1 ≤ d)
    (hd2 : d ≤ 31) (hy : y ≤ 9999) :
    regexMatchMDY ('0' :: digitChar m :: (zeroPad 2 d ++ zeroPad 4 y)) = some (m, d, y, []) := by
  unfold regexMatchMDY
  rw [monthCands_small m hm1 hm2]
  apply firstSome_cons_some
  show firstSome (dayCands (zeroPad 2 d ++ zeroPad 4 y))
      (fun dc => (yearCand dc.2).map (fun yc => (m, dc.1, yc.1, yc.2))) = some (m, d, y, [])
  obtain ⟨tl, htl⟩ := dayCands_head d hd1 hd2 (zeroPad 4 y)
  rw [htl]
  apply firstSome_cons_some
  show (yearCand (zeroPad 4 y)).map (fun yc => (m, d, yc.1, yc.2)) = some (m, d, y, [])
  rw [yearCand_zeroPad y (by omega)]
  rfl

theorem regexMatch_big (m d y : Nat) (hm1 : 10 ≤ m) (hm2 : m ≤ 12) (hd1 : 1 ≤ d)
    (hd2 : d ≤ 31) (hy : y ≤ 9999) :
    regexMatchMDY ('1' :: digitChar (m - 10) :: (zeroPad 2 d ++ zeroPad 4 y))
      = some (m, d, y, []) := by
  unfold regexMatchMDY
  rw [monthCands_big m hm1 hm2]
  apply firstSome_cons_some
  show firstSome (dayCands (zeroPad 2 d ++ zeroPad 4 y))
      (fun dc => (yearCand dc.2).map (fun yc => (m, dc.1, yc.1, yc.2))) = some (m, d, y, [])
  obtain ⟨tl, htl⟩ := dayCands_head d hd1 hd2 (zeroPad 4 y)
  rw [htl]
  apply firstSome_cons_some
  show (yearCand (zeroPad 4 y)).map (fun yc => (m, d, yc.1, yc.2)) = some (m, d, y, [])
  rw [yearCand_zeroPad y (by omega)]
  rfl

theorem daysInMonth_le (m y : Nat) : daysInMonth m y ≤ 31 := by
  unfold daysInMonth
  split_ifs <;> omega

theorem strptime_small (m d y : Nat) (hm1 : 1 ≤ m) (hm2 : m ≤ 9) (hd1 : 1 ≤ d)
    (hdim : d ≤ daysInMonth m y) (hy1 : 1 ≤ y) (hy2 : y ≤ 9999) :
    strptimeMDY ('0' :: digitChar m :: (zeroPad 2 d ++ zeroPad 4 y)) = some (m, d, y) := by
  have hd31 : d ≤ 31 := le_trans hdim (daysInMonth_le m y)
  unfold strptimeMDY
  rw [regexMatch_small m d y hm1 hm2 hd1 hd31 hy2]
  show (if ([] : List Char) = [] ∧ 1 ≤ y ∧ d ≤ daysInMonth m y then some (m, d, y) else none)
      = some (m, d, y)
  rw [if_pos ⟨rfl, hy1, hdim⟩]

theorem strptime_big (m d y : Nat) (hm1 : 10 ≤ m) (hm2 : m ≤ 12) (hd1 : 1 ≤ d)
    (hdim : d ≤ daysInMonth m y) (hy1 : 1 ≤ y) (hy2 : y ≤ 9999) :
    strptimeMDY ('1' :: digitChar (m - 10) :: (zeroPad 2 d ++ zeroPad 4 y)) = some (m, d, y) := by
  have hd31 : d ≤ 31 := le_trans hdim (daysInMonth_le m y)
  unfold strptimeMDY
  rw [regexMatch_big m d y hm1 hm2 hd1 hd31 hy2]
  show (if ([] : List Char) = [] ∧ 1 ≤ y ∧ d ≤ daysInMonth m y then some (m, d, y) else none)
      = some (m, d, y)
  rw [if_pos ⟨rfl, hy1, hdim⟩]

theorem encode_small (m d y : Nat) (h1 : 1 ≤ m) (h2 : m ≤ 9) (hd : d ≤ 99) (hy : y ≤ 9999) :
    natDigits (m * 1000000 + d * 10000 + y) = digitChar m :: (zeroPad 2 d ++ zeroPad 4 y) := by
  have hp6 : (10 : Nat) ^ 6 = 1000000 := by norm_num
  have hp4 : (10 : Nat) ^ 4 = 10000 := by norm_num
  have hform : m * 1000000 + d * 10000 + y = m * 10 ^ 6 + (d * 10000 + y) := by
    rw [hp6]; ring
  rw [hform, natDigits_split 6 m (d * 10000 + y) (by omega) (by rw [hp6]; omega),
    natDigits_small (by omega)]
  have hsplit : zeroPad 6 (d * 10000 + y) = zeroPad 2 d ++ zeroPad 4 y := by
    have h6 : (6 : Nat) = 2 + 4 := rfl
    rw [h6, zeroPad_split 4 2 (d * 10000 + y), hp4]
    have hdy : (d * 10000 + y) / 10000 = d := by omega
    have hmy : (d * 10000 + y) % 10000 = y := by omega
    rw [hdy, hmy]
  rw [hsplit]
  rfl

theorem encode_big (m d y : Nat) (h1 : 10 ≤ m) (h2 : m ≤ 12) (hd : d ≤ 99) (hy : y ≤ 9999) :
    natDigits (m * 1000000 + d * 10000 + y)
      = '1' :: digitChar (m - 10) :: (zeroPad 2 d ++ zeroPad 4 y) := by
  have hp6 : (10 : Nat) ^ 6 = 1000000 := by norm_num
  have hp4 : (10 : Nat) ^ 4 = 10000 := by norm_num
  have hform : m * 1000000 + d * 10000 + y = m * 10 ^ 6 + (d * 10000 + y) := by
    rw [hp6]; ring
  rw [hform, natDigits_split 6 m (d * 10000 + y) (by omega) (by rw [hp6]; omega)]
  have hm : natDigits m = ['1', digitChar (m - 10)] := by
    rw [natDigits_step h1]
    have hdiv : m / 10 = 1 := by omega
    have hmod : m % 10 = m - 10 := by omega
    rw [hdiv, hmod, natDigits_small (by omega)]
    rfl
  rw [hm]
  have hsplit : zeroPad 6 (d * 10000 + y) = zeroPad 2 d ++ zeroPad 4 y := by
    have h6 : (6 : Nat) = 2 + 4 := rfl
    rw [h6, zeroPad_split 4 2 (d * 10000 + y), hp4]
    have hdy : (d * 10000 + y) / 10000 = d := by omega
    have hmy : (d * 10000 + y) % 10000 = y := by omega
    rw [hdy, hmy]
  rw [hsplit]
  rfl

/-- Claim C1, counterexample: `strptime("%m%d%Y")` reads the month
first, so the numeric value 5092025 — "05092025" after padding — parses
as month 05, day 09, year 2025 and is rendered "09 May 25", not the
"05 Sep 25" the claim states (the claim contradicts its own
month(2)/day(2)/year(4) reading there). -/
theorem c1_example_counterexample :
    format_invoice_date (Value.vFloat 5092025) "01 Jan 70" = "09 May 25"
    ∧ "09 May 25" ≠ "05 Sep 25" := by
  exact ⟨by decide, by decide⟩

/-- Claim C1, amended: the date formatter renders 5092025 as
"09 May 25" (month first: 05/09/2025), renders 12312025 as "31 Dec 25",
and returns the current date for 0, for a value that does not parse as
an integer and for a missing value.  In general, for every numeric
value encoding month, day and 4-digit year as m*10^6 + d*10^4 + y with
a valid calendar date, the formatter renders the integer string,
left-pads a 7-digit string with one "0", parses the 8 digits as
month(2)/day(2)/year(4) and formats the result as "DD Mon YY"
(zero-padded day, 3-letter month abbreviation, 2-digit year),
independently of the current date. -/
theorem c1_date_formatter_amended :
    (∀ today, format_invoice_date (Value.vFloat 5092025) today = "09 May 25")
    ∧ (∀ today, format_invoice_date (Value.vInt 12312025) today = "31 Dec 25")
    ∧ (∀ today, format_invoice_date (Value.vFloat 0) today = today)
    ∧ (∀ today, format_invoice_date (Value.vStr "not a number") today = today)
    ∧ (∀ today, format_invoice_date Value.vNone today = today)
    ∧ (∀ (m d y : Nat) (today : String), 1 ≤ m → m ≤ 12 → 1 ≤ d → d ≤ daysInMonth m y →
        1 ≤ y → y ≤ 9999 →
        format_invoice_date (Value.vFloat ((m * 1000000 + d * 10000 + y : Nat) : Rat)) today
          = strftimeDdMonYy m d y) := by
  refine ⟨fun t => rfl, fun t => rfl, fun t => rfl, fun t => rfl, fun t => rfl, ?_⟩
  intro m d y today hm1 hm2 hd1 hdim hy1 hy2
  have hd31 : d ≤ 31 := le_trans hdim (daysInMonth_le m y)
  have hfalsy : falsyOrNa (Value.vFloat ((m * 1000000 + d * 10000 + y : Nat) : Rat)) = false := by
    have hne : ((m * 1000000 + d * 10000 + y : Nat) : Rat) ≠ 0 := by
      rw [Ne, Nat.cast_eq_zero]
      omega
    have hstep : falsyOrNa (Value.vFloat ((m * 1000000 + d * 10000 + y : Nat) : Rat))
        = !(!(((m * 1000000 + d * 10000 + y : Nat) : Rat) == 0)) := rfl
    rw [hstep, Bool.not_not]
    exact beq_eq_false_iff_ne.mpr hne
  have hint : pyIntOf (Value.vFloat ((m * 1000000 + d * 10000 + y : Nat) : Rat))
      = Except.ok ((m * 1000000 + d * 10000 + y : Nat) : Int) := by
    have hstep : pyIntOf (Value.vFloat ((m * 1000000 + d * 10000 + y : Nat) : Rat))
        = Except.ok (pyTrunc ((m * 1000000 + d * 10000 + y : Nat) : Rat)) := rfl
    rw [hstep]
    unfold pyTrunc
    rw [Rat.num_natCast, Rat.den_natCast, Nat.cast_one, Int.tdiv_one]
  have hstr : intStr ((m * 1000000 + d * 10000 + y : Nat) : Int)
      = natDigits (m * 1000000 + d * 10000 + y) := by
    rw [intStr, if_neg (Int.not_lt.mpr (Int.natCast_nonneg _)), Int.toNat_natCast]
  unfold format_invoice_date
  rw [hfalsy]
  simp only [Bool.false_eq_true, if_false, hint, hstr]
  by_cases hm10 : m < 10
  · rw [encode_small m d y hm1 (by omega) (by omega) hy2]
    have hlen : (digitChar m :: (zeroPad 2 d ++ zeroPad 4 y)).length = 7 := by
      simp [zeroPad_length]
    rw [if_pos hlen, strptime_small m d y hm1 (by omega) hd1 hdim hy1 hy2]
  · rw [encode_big m d y (by omega) hm2 (by omega) hy2]
    have hne : ('1' :: digitChar (m - 10) :: (zeroPad 2 d ++ zeroPad 4 y)).length ≠ 7 := by
      simp [zeroPad_length]
    rw [if_neg hne, strptime_big m d y (by omega) hm2 hd1 hdim hy1 hy2]

/-- Claim C1 witness: the amended encoding statement applied to month
12, day 31, year 2025 (the numeric value 12312025), with every range
and calendar hypothesis discharged by evaluation. -/
theorem c1_date_formatter_amended_witness :
    format_invoice_date (Value.vFloat ((12 * 1000000 + 31 * 10000 + 2025 : Nat) : Rat)) "X"
      = strftimeDdMonYy 12 31 2025 :=
  c1_date_formatter_amended.2.2.2.2.2 12 31 2025 "X" (by decide) (by decide) (by decide)
    (by decide) (by decide) (by decide)
